import Mathlib

/-!
Verification of the analytical core of the monthly stock-performance
analyzer (`src/app.py`) against its natural-language specification.

The engine is embedded shallowly:

* prices and returns are rational numbers (`ℚ`); the Python floats carry
  exact decimal data in all scenarios considered here;
* a pandas `Timestamp` is reduced to its (year, month) pair (`MDate`): every
  function of the core groups or aligns dates by calendar month only, and
  within-month ordering is the (chronological) list order of the series;
* a missing cell (`NaN`) is `Option.none`; a numeric expression that pandas
  evaluates to `NaN` (for example `0 / 0` on numpy scalars, which warns and
  yields `nan` rather than raising) is likewise modelled as `none`;
* Python's `round(x, n)` is round-half-to-even on the exact rational value.
-/

/-- A calendar date reduced to (year, month); the analytical core never
inspects the day of month (monthly series carry month-end stamps). -/
structure MDate where
  y : ℕ
  m : ℕ
deriving DecidableEq

/-- Python's banker's rounding (`round`) to an integer: round half to even. -/
def pyRound (q : ℚ) : ℤ :=
  if q - ⌊q⌋ < 1/2 then ⌊q⌋
  else if 1/2 < q - ⌊q⌋ then ⌊q⌋ + 1
  else if ⌊q⌋ % 2 = 0 then ⌊q⌋ else ⌊q⌋ + 1

/-- Python's `round(x, 1)`. -/
def round1 (q : ℚ) : ℚ := (pyRound (q * 10) : ℚ) / 10

/-- Python's `round(x, 2)`. -/
def round2 (q : ℚ) : ℚ := (pyRound (q * 100) : ℚ) / 100

/-- `Series.mean()`: `NaN` (here `none`) on an empty series. -/
def meanQ (l : List ℚ) : Option ℚ :=
  if l.isEmpty then none else some (l.sum / l.length)

/-- Mean of a series known to be non-empty (pandas `mean()` under a guard). -/
def meanD (l : List ℚ) : ℚ := l.sum / l.length

/-- `MONTHS_ES` (app.py lines 119-123): Spanish month names. -/
def MONTHS_ES (m : ℕ) : String :=
  match m with
  | 1 => "Enero" | 2 => "Febrero" | 3 => "Marzo" | 4 => "Abril"
  | 5 => "Mayo" | 6 => "Junio" | 7 => "Julio" | 8 => "Agosto"
  | 9 => "Septiembre" | 10 => "Octubre" | 11 => "Noviembre" | 12 => "Diciembre"
  | _ => ""

/-! ## MonthlyPriceTable and the ReturnCalculator (`compute_monthly_returns`)

A `PriceTable` is the row-aligned pandas `DataFrame`: one row per month-end
date, one column per ticker, a cell `none` when that instrument has no data
in that month. -/

structure PriceTable where
  tickers : List String
  rows : List (MDate × List (Option ℚ))

/-- One cell of `prices.pct_change(fill_method=None) * 100`: the value is
`(p[t] / p[t-1] - 1) * 100` where `p[t-1]` is the cell of the immediately
preceding row, and `NaN` (none) as soon as either cell is missing — with
`fill_method=None` pandas does not forward-fill, so gaps are not skipped. -/
def pctCell (prev cur : Option ℚ) : Option ℚ :=
  match prev, cur with
  | some q, some p => some ((p / q - 1) * 100)
  | _, _ => none

/-- `pct_change` down the rows: each row is combined with the cells of the
row immediately above it (`prev`); the first row has no predecessor. -/
def pctRows (prev : List (Option ℚ)) : List (MDate × List (Option ℚ)) → List (MDate × List (Option ℚ))
  | [] => []
  | r :: rs => (r.1, List.zipWith pctCell prev r.2) :: pctRows r.2 rs

/-- `compute_monthly_returns` (app.py lines 396-400):
`returns = prices.pct_change(fill_method=None) * 100` followed by
`returns.dropna(how="all")`, which removes the rows whose cells are all
missing. -/
def compute_monthly_returns (t : PriceTable) : PriceTable :=
  { tickers := t.tickers
    rows := (pctRows (List.replicate t.tickers.length none) t.rows).filter
      (fun r => !(r.2.all Option.isNone)) }

/-- The cell of a table at a given date and column index (`none` when the
date is absent or the cell is missing). -/
def cellAt (t : PriceTable) (d : MDate) (j : ℕ) : Option ℚ :=
  match t.rows.find? (fun r => decide (r.1 = d)) with
  | none => none
  | some r => (r.2.getD j none)

/-- The cell of a raw row list by row index and column index. -/
def cellIdx (rows : List (MDate × List (Option ℚ))) (i j : ℕ) : Option ℚ :=
  match rows[i]? with
  | none => none
  | some r => (r.2.getD j none)

/-! ## The column view of a table

`get_monthly_stats` and `find_correlations` read the returns `DataFrame`
one column at a time through `returns_copy[ticker].dropna()`: all that is
used of the table is, per ticker, the list of its present cells in date
order.  `RetCols` is exactly that view: one `(ticker, series)` pair per
column, in column order, each series listing the present `(date, value)`
cells. -/

/-- Column view of a (returns) table. -/
abbrev RetCols := List (String × List (MDate × ℚ))

/-- `cols[t]` — pandas raises `KeyError` for a missing column, so lookup is
partial. -/
def lookupCol (cols : RetCols) (t : String) : Option (List (MDate × ℚ)) :=
  (cols.find? (fun p => p.1 == t)).map (·.2)

/-- `col[col.index.month == m]`, keeping only the values. -/
def monthVals (col : List (MDate × ℚ)) (m : ℕ) : List ℚ :=
  (col.filter (fun e => e.1.m == m)).map (·.2)

/-! ## SeasonalityAggregator (`get_monthly_stats`) -/

/-- One output row of `get_monthly_stats` (app.py lines 422-435).  The
source also emits `retorno_med`, `retorno_max`, `retorno_min` and `std`
(rounded to 2 decimals, `std` being the sample standard deviation); those
presentation statistics are consumed by no claim below and the square root
inside `std` has no exact rational value, so they are not carried here. -/
structure StatRow where
  ticker : String
  month : ℕ
  month_name : String
  veces_subio : ℕ
  veces_bajo : ℕ
  total_anos : ℕ
  pct_sube : ℚ
  retorno_prom : ℚ
deriving DecidableEq

/-- Loop body of `get_monthly_stats` for one `(ticker, month)` pair
(app.py lines 416-435): skip the pair when it has no observation, else
count strict ups and downs and round the percentages when the row is
built. -/
def monthlyStatRow (t : String) (col : List (MDate × ℚ)) (m : ℕ) : Option StatRow :=
  let vals := monthVals col m
  if vals.isEmpty then none
  else some
    { ticker := t
      month := m
      month_name := MONTHS_ES m
      veces_subio := vals.countP (fun v => decide (0 < v))
      veces_bajo := vals.countP (fun v => decide (v < 0))
      total_anos := vals.length
      pct_sube := round1 ((vals.countP (fun v => decide (0 < v)) : ℚ) / vals.length * 100)
      retorno_prom := round2 (vals.sum / vals.length) }

/-- `get_monthly_stats` (app.py lines 403-437): all columns, months 1-12. -/
def get_monthly_stats (cols : RetCols) : List StatRow :=
  cols.flatMap (fun tc => (List.range' 1 12).filterMap (fun m => monthlyStatRow tc.1 tc.2 m))

/-! ## Sector lookup (`SECTOR_MAP`, `get_ticker_sector`) -/

/-- `SECTOR_MAP` (app.py lines 134-224), as (ticker, sector) pairs. -/
def SECTOR_MAP : List (String × String) := [
  ("AAL", "Aerolíneas"), ("DAL", "Aerolíneas"), ("UAL", "Aerolíneas"),
  ("LUV", "Aerolíneas"), ("JBLU", "Aerolíneas"), ("ALK", "Aerolíneas"),
  ("SAVE", "Aerolíneas"), ("HA", "Aerolíneas"), ("SKYW", "Aerolíneas"),
  ("MESA", "Aerolíneas"), ("RYAAY", "Aerolíneas"), ("VLRS", "Aerolíneas"),
  ("AAPL", "Tecnología"), ("MSFT", "Tecnología"), ("GOOG", "Tecnología"),
  ("GOOGL", "Tecnología"), ("META", "Tecnología"), ("AMZN", "Tecnología"),
  ("NFLX", "Tecnología"), ("CRM", "Tecnología"), ("ADBE", "Tecnología"),
  ("ORCL", "Tecnología"), ("NOW", "Tecnología"), ("INTU", "Tecnología"),
  ("SHOP", "Tecnología"), ("SQ", "Tecnología"), ("UBER", "Tecnología"),
  ("ABNB", "Tecnología"), ("SNAP", "Tecnología"), ("PINS", "Tecnología"),
  ("SPOT", "Tecnología"), ("PLTR", "Tecnología"), ("AI", "Tecnología"),
  ("ACN", "Tecnología"), ("NVDA", "Semiconductores"), ("AMD", "Semiconductores"),
  ("INTC", "Semiconductores"), ("AVGO", "Semiconductores"), ("QCOM", "Semiconductores"),
  ("TXN", "Semiconductores"), ("AMAT", "Semiconductores"), ("LRCX", "Semiconductores"),
  ("KLAC", "Semiconductores"), ("MU", "Semiconductores"), ("MRVL", "Semiconductores"),
  ("ON", "Semiconductores"), ("ASML", "Semiconductores"), ("TSM", "Semiconductores"),
  ("ARM", "Semiconductores"), ("ALAB", "Semiconductores"), ("JPM", "Bancos"),
  ("BAC", "Bancos"), ("WFC", "Bancos"), ("GS", "Bancos"),
  ("MS", "Bancos"), ("C", "Bancos"), ("USB", "Bancos"),
  ("PNC", "Bancos"), ("SCHW", "Bancos"), ("BK", "Bancos"),
  ("STT", "Bancos"), ("CFG", "Bancos"), ("FITB", "Bancos"),
  ("KEY", "Bancos"), ("RF", "Bancos"), ("HBAN", "Bancos"),
  ("V", "Bancos"), ("MA", "Bancos"), ("AXP", "Bancos"),
  ("COF", "Bancos"), ("BRK-B", "Bancos"), ("BBAR", "Bancos"),
  ("BMA", "Bancos"), ("GGAL", "Bancos"), ("SUPV", "Bancos"),
  ("JNJ", "Salud"), ("PFE", "Salud"), ("UNH", "Salud"),
  ("ABBV", "Salud"), ("MRK", "Salud"), ("LLY", "Salud"),
  ("TMO", "Salud"), ("ABT", "Salud"), ("AMGN", "Salud"),
  ("BMY", "Salud"), ("GILD", "Salud"), ("ISRG", "Salud"),
  ("VRTX", "Salud"), ("REGN", "Salud"), ("ZTS", "Salud"),
  ("SYK", "Salud"), ("MDT", "Salud"), ("DHR", "Salud"),
  ("ELV", "Salud"), ("CI", "Salud"), ("HCA", "Salud"),
  ("IQV", "Salud"), ("BIIB", "Salud"), ("AEM", "Mineras"),
  ("NEM", "Mineras"), ("GOLD", "Mineras"), ("FNV", "Mineras"),
  ("WPM", "Mineras"), ("AUY", "Mineras"), ("KGC", "Mineras"),
  ("AG", "Mineras"), ("PAAS", "Mineras"), ("HL", "Mineras"),
  ("CDE", "Mineras"), ("FSM", "Mineras"), ("BHP", "Mineras"),
  ("RIO", "Mineras"), ("VALE", "Mineras"), ("FCX", "Mineras"),
  ("SCCO", "Mineras"), ("TECK", "Mineras"), ("CLF", "Mineras"),
  ("X", "Mineras"), ("NUE", "Mineras"), ("STLD", "Mineras"),
  ("AA", "Mineras"), ("XOM", "Energía"), ("CVX", "Energía"),
  ("COP", "Energía"), ("SLB", "Energía"), ("EOG", "Energía"),
  ("MPC", "Energía"), ("PSX", "Energía"), ("VLO", "Energía"),
  ("PXD", "Energía"), ("DVN", "Energía"), ("OXY", "Energía"),
  ("HAL", "Energía"), ("BKR", "Energía"), ("FANG", "Energía"),
  ("HES", "Energía"), ("YPF", "Energía"), ("VIST", "Energía"),
  ("PAM", "Energía"), ("KO", "Consumo"), ("PEP", "Consumo"),
  ("PG", "Consumo"), ("COST", "Consumo"), ("WMT", "Consumo"),
  ("HD", "Consumo"), ("MCD", "Consumo"), ("NKE", "Consumo"),
  ("SBUX", "Consumo"), ("TGT", "Consumo"), ("LOW", "Consumo"),
  ("DG", "Consumo"), ("DLTR", "Consumo"), ("ROST", "Consumo"),
  ("TJX", "Consumo"), ("ANF", "Consumo"), ("ABEV", "Consumo"),
  ("SPY", "ETFs"), ("QQQ", "ETFs"), ("IWM", "ETFs"),
  ("DIA", "ETFs"), ("ACWI", "ETFs"), ("ARKK", "ETFs"),
  ("XLF", "ETFs"), ("XLE", "ETFs"), ("XLV", "ETFs"),
  ("XLK", "ETFs"), ("XLI", "ETFs"), ("XLP", "ETFs"),
  ("GDX", "ETFs"), ("GDXJ", "ETFs"), ("SLV", "ETFs"),
  ("GLD", "ETFs"), ("EEM", "ETFs"), ("VWO", "ETFs"),
  ("EWZ", "ETFs"), ("EFA", "ETFs"), ("T", "Telecom"),
  ("VZ", "Telecom"), ("TMUS", "Telecom"), ("CMCSA", "Telecom"),
  ("CHTR", "Telecom"), ("DIS", "Telecom"), ("WBD", "Telecom"),
  ("CAT", "Industriales"), ("DE", "Industriales"), ("BA", "Industriales"),
  ("HON", "Industriales"), ("UNP", "Industriales"), ("GE", "Industriales"),
  ("RTX", "Industriales"), ("LMT", "Industriales"), ("NOC", "Industriales"),
  ("GD", "Industriales"), ("MMM", "Industriales"), ("FDX", "Industriales"),
  ("UPS", "Industriales"), ("AMT", "Real Estate"), ("PLD", "Real Estate"),
  ("CCI", "Real Estate"), ("EQIX", "Real Estate"), ("SPG", "Real Estate"),
  ("O", "Real Estate"), ("DLR", "Real Estate"), ("PSA", "Real Estate"),
  ("WELL", "Real Estate"), ("AVB", "Real Estate"), ("EQR", "Real Estate"),
  ("MELI", "LATAM"), ("NU", "LATAM"), ("AMX", "LATAM"),
  ("ARCO", "LATAM"), ("GLOB", "LATAM"), ("DLO", "LATAM"),
  ("STNE", "LATAM"), ("CAAP", "LATAM"), ("CRESY", "LATAM"),
  ("CEPU", "LATAM"), ("EDN", "LATAM"), ("LOMA", "LATAM"),
  ("TEO", "LATAM"), ("TGS", "LATAM"), ("TX", "LATAM"),
  ("IRS", "LATAM")]

/-- `get_ticker_sector` (app.py lines 227-229): map lookup with the
catch-all sector "Otros". -/
def get_ticker_sector (t : String) : String :=
  ((SECTOR_MAP.find? (fun p => p.1 == t)).map (·.2)).getD "Otros"

/-! ## SectorAggregator (`chart_sector_best_month`, `chart_sector_monthly_comparison`)

Only the row-building parts of the two chart functions are embedded (the
cited lines); the subsequent plotly styling and the display re-sort of the
bar chart consume the rows unchanged. -/

/-- Maximum of a series (pandas `max()`; used only under non-empty guards). -/
def maxQ (l : List ℚ) : ℚ :=
  match l with
  | [] => 0
  | x :: xs => xs.foldl max x

/-- One row built by `chart_sector_best_month` (app.py lines 877-884). -/
structure SectorRow where
  sector : String
  win_rate : ℚ
  retorno_prom : ℚ
  n_tickers : ℕ
  mejor_ticker : String
  mejor_wr : ℚ
deriving DecidableEq

/-- Loop body of `chart_sector_best_month` for one sector (app.py lines
868-884): the tickers of the sector among the available ones
(`get_available_sectors(available_tickers).get(sector, [])`), then the
stats rows of those tickers for the requested month; skip when either
set is empty, else average the rows' (already rounded) `pct_sube` and
`retorno_prom` fields.  `idxmax` returns the first row attaining the
maximum. -/
def sectorRowFor (stats : List StatRow) (available : List String) (month : ℕ) (sector : String) : Option SectorRow :=
  let sectorTickers := available.filter (fun t => get_ticker_sector t == sector)
  if sectorTickers.isEmpty then none
  else
    let sectorStats := stats.filter (fun r => sectorTickers.contains r.ticker && r.month == month)
    if sectorStats.isEmpty then none
    else
      let best := maxQ (sectorStats.map (·.pct_sube))
      some
        { sector := sector
          win_rate := meanD (sectorStats.map (·.pct_sube))
          retorno_prom := meanD (sectorStats.map (·.retorno_prom))
          n_tickers := sectorStats.length
          mejor_ticker := ((sectorStats.find? (fun r => r.pct_sube == best)).map (·.ticker)).getD ""
          mejor_wr := best }

/-- Row construction of `chart_sector_best_month` (app.py lines 867-884). -/
def chart_sector_best_month (stats : List StatRow) (available : List String) (selectedSectors : List String) (month : ℕ) : List SectorRow :=
  selectedSectors.filterMap (sectorRowFor stats available month)

/-- The caller-selected display metric of the sector comparison chart. -/
inductive Metric where
  | pct_sube
  | retorno_prom
deriving DecidableEq

/-- The record field read for a metric. -/
def metricField (metric : Metric) (r : StatRow) : ℚ :=
  match metric with
  | .pct_sube => r.pct_sube
  | .retorno_prom => r.retorno_prom

/-- One row of `chart_sector_monthly_comparison`. -/
structure CompRow where
  sector : String
  month : ℕ
  valor : ℚ
  n_tickers : ℕ
deriving DecidableEq

/-- Row construction of `chart_sector_monthly_comparison` (app.py lines
759-775): per selected sector (skipping sectors with no available ticker)
and per month with at least one stats row, the mean of the chosen metric
over the sector's rows for that month. -/
def chart_sector_monthly_comparison (stats : List StatRow) (available : List String) (selectedSectors : List String) (metric : Metric) : List CompRow :=
  selectedSectors.flatMap (fun sector =>
    let sectorTickers := available.filter (fun t => get_ticker_sector t == sector)
    if sectorTickers.isEmpty then []
    else
      let sectorStats := stats.filter (fun r => sectorTickers.contains r.ticker)
      (List.range' 1 12).filterMap (fun month =>
        let monthData := sectorStats.filter (fun r => r.month == month)
        if monthData.isEmpty then none
        else some
          { sector := sector
            month := month
            valor := meanD (monthData.map (metricField metric))
            n_tickers := monthData.length }))

/-! ## PriceSeriesNormalizer (`_extract_close_series`)

A raw yfinance frame is modelled by its columns.  Column labels are either
plain names (Formato A) or two-level pairs (Formatos B/C and the fallback).
Each cell keeps its date stamp; a cell either carries a number or fails
numeric coercion (`NaN`, a string, ...), in which case
`pd.to_numeric(errors="coerce").dropna()` drops it. -/

/-- One raw cell: numerically coercible, or dropped by coercion. -/
inductive RawCell where
  | num (q : ℚ)
  | bad
deriving DecidableEq

/-- A raw provider frame: simple columns or a two-level column MultiIndex. -/
inductive RawFrame where
  | simple (cols : List (String × List (MDate × RawCell)))
  | multi (cols : List ((String × String) × List (MDate × RawCell)))

/-- `df.empty`: no columns, or no rows (all columns share the row index, so
an empty frame has every column empty). -/
def frameEmpty : RawFrame → Bool
  | .simple cols => cols.all (fun c => c.2.isEmpty)
  | .multi cols => cols.all (fun c => c.2.isEmpty)

/-- `pd.to_numeric(series, errors="coerce").dropna()`: entries failing
numeric coercion become `NaN` and are dropped; the rest keep their dates. -/
def coerceClean (cells : List (MDate × RawCell)) : List (MDate × ℚ) :=
  cells.filterMap (fun e =>
    match e.2 with
    | .num q => some (e.1, q)
    | .bad => none)

/-- Whether a raw cell survives numeric coercion. -/
def isNumCell (e : MDate × RawCell) : Bool :=
  match e.2 with
  | .num _ => true
  | .bad => false

/-- The column that the branching of `_extract_close_series` (app.py lines
266-317) selects, before numeric coercion:

* empty or missing frame → no column;
* MultiIndex, `"Close"` in level 0 (Formato B): the sub-frame `df["Close"]`,
  the `ticker` sub-column when present, else its first column;
* MultiIndex, `ticker` in level 0 (Formato C): the sub-frame `df[ticker]`,
  its `"Close"` sub-column when present, else its first column;
* MultiIndex fallback: the first column whose level 1 is `"Close"`;
* simple columns: the `"Close"` column, else the `ticker` column;
* otherwise no column.

When a label is duplicated pandas yields a sub-`DataFrame`, of which line
317 (`series.iloc[:, 0]`) keeps the first column, so each selection takes
the first match. -/
def selectRawColumn (f : RawFrame) (ticker : String) : Option (List (MDate × RawCell)) :=
  if frameEmpty f then none
  else
    match f with
    | .multi cols =>
      let lvl0 := cols.map (fun c => c.1.1)
      let lvl1 := cols.map (fun c => c.1.2)
      if lvl0.contains "Close" then
        let sub := cols.filter (fun c => c.1.1 == "Close")
        match sub.find? (fun c => c.1.2 == ticker) with
        | some c => some c.2
        | none => (sub.head?).map (·.2)
      else if lvl0.contains ticker then
        let sub := cols.filter (fun c => c.1.1 == ticker)
        match sub.find? (fun c => c.1.2 == "Close") with
        | some c => some c.2
        | none => (sub.head?).map (·.2)
      else if lvl1.contains "Close" then
        (cols.find? (fun c => c.1.2 == "Close")).map (·.2)
      else none
    | .simple cols =>
      if (cols.map (·.1)).contains "Close" then
        (cols.find? (fun c => c.1 == "Close")).map (·.2)
      else if (cols.map (·.1)).contains ticker then
        (cols.find? (fun c => c.1 == ticker)).map (·.2)
      else none

/-- `_extract_close_series` (app.py lines 250-323): select the closing
column, coerce it to numbers dropping failures, and return `None` when
nothing remains.  The `try`/`except` wrapper and the `df is None` guard
have no counterpart: the embedding is total and a missing frame is an
empty one. -/
def extract_close_series (f : RawFrame) (ticker : String) : Option (List (MDate × ℚ)) :=
  match selectRawColumn f ticker with
  | none => none
  | some col =>
    let s := coerceClean col
    if s.isEmpty then none else some s

/-! ## MonthlyResampler (`download_data`, per-ticker step) -/

/-- `close.resample("ME").last().dropna()`: one entry per calendar month
present in the series, keeping the value of the month's last observation
(the series index is chronological, so the last observation of a month is
its last listed one). -/
def lastPerMonth (l : List (MDate × ℚ)) : List (MDate × ℚ) :=
  l.foldl (fun acc e =>
    if acc.any (fun a => decide (a.1 = e.1)) then
      acc.map (fun a => if a.1 = e.1 then e else a)
    else acc ++ [e]) []

/-- The per-ticker monthly resampling step of `download_data` (app.py lines
355-369): the ticker is dropped when extraction failed, when the raw close
series has fewer than 50 observations, or when the monthly series does not
have more than 10 months; otherwise the monthly series is kept. -/
def resample_step (close? : Option (List (MDate × ℚ))) : Option (List (MDate × ℚ)) :=
  match close? with
  | none => none
  | some close =>
    if close.length < 50 then none
    else
      let monthly := lastPerMonth close
      if 10 < monthly.length then some monthly else none

/-! ## CorrelationFinder (`find_correlations`) -/

/-- One output record of `find_correlations` (app.py lines 476-484 and
499-507).  `pct_subio` and `retorno_prom` are `none` when pandas would
produce `NaN` (division of a numpy scalar by zero and the mean of an empty
selection warn and yield `nan` rather than raising). -/
structure CorrRecord where
  ticker : String
  periodo : String
  mes : String
  n_anos : ℕ
  subio_cuando_ref_bajo : ℕ
  pct_subio : Option ℚ
  retorno_prom : Option ℚ
deriving DecidableEq

/-- The shared per-period body of the candidate loop of `find_correlations`:
given the candidate's data for the target month (`dat`) and the (possibly
shifted) reference down-years (`yrs`), intersect, gate on `min_overlap`,
and build the record.  The same-month block (app.py lines 467-484) and the
next-month block (lines 487-507) are both instances. -/
def periodRecord (ticker periodo : String) (mesNum : ℕ) (dat : List (MDate × ℚ)) (yrs : List ℕ) (minOverlap : ℕ) : Option CorrRecord :=
  let common := yrs.filter (fun y => (dat.map (·.1.y)).contains y)
  if minOverlap ≤ common.length then
    let vals := (dat.filter (fun e => common.contains e.1.y)).map (·.2)
    let subio := vals.countP (fun v => decide (0 < v))
    some
      { ticker := ticker
        periodo := periodo
        mes := MONTHS_ES mesNum
        n_anos := common.length
        subio_cuando_ref_bajo := subio
        pct_subio :=
          if common.length = 0 then none
          else some (round1 ((subio : ℚ) / common.length * 100))
        retorno_prom := (meanQ vals).map round2 }
  else none

/-- Same-month block (app.py lines 467-484): the candidate's data for the
reference month against the unshifted down-years. -/
def sameMonthRecord (ticker : String) (col : List (MDate × ℚ)) (refMonth : ℕ) (downYears : List ℕ) (minOverlap : ℕ) : Option CorrRecord :=
  periodRecord ticker "Mismo mes" refMonth (col.filter (fun e => e.1.m == refMonth)) downYears minOverlap

/-- Next-month block (app.py lines 487-507): the target month is
`ref_month % 12 + 1`, and for December each down-year is shifted to the
following year before the intersection. -/
def nextMonthRecord (ticker : String) (col : List (MDate × ℚ)) (refMonth : ℕ) (downYears : List ℕ) (minOverlap : ℕ) : Option CorrRecord :=
  let nextMonth := refMonth % 12 + 1
  let nextYears := if refMonth == 12 then downYears.map (· + 1) else downYears
  periodRecord ticker "Mes siguiente" nextMonth (col.filter (fun e => e.1.m == nextMonth)) nextYears minOverlap

/-- Comparison by `pct_subio` used by the final sort (records reaching the
sort with a defined percentage). -/
def corrLe (a b : CorrRecord) : Prop :=
  a.pct_subio.getD 0 ≤ b.pct_subio.getD 0

instance : DecidableRel corrLe := fun a b =>
  inferInstanceAs (Decidable (a.pct_subio.getD 0 ≤ b.pct_subio.getD 0))

instance : IsTotal CorrRecord corrLe :=
  ⟨fun a b => le_total (a.pct_subio.getD 0) (b.pct_subio.getD 0)⟩

instance : IsTrans CorrRecord corrLe :=
  ⟨fun _ _ _ hab hbc => le_trans hab hbc⟩

/-- `df.sort_values("pct_subio", ascending=False)` (app.py line 512).
pandas `nargsort` with `ascending=False` reverses the non-`NaN` keys and
their positions *before* argsorting ascending, reverses the resulting
indexer *after*, and appends the `NaN` positions last
(`na_position="last"`); see pandas GH 6399.  The double reversal makes
the descending sort keep tied keys in their original order whenever the
underlying argsort is stable, which numpy's `kind="quicksort"` (introsort)
is on slices shorter than 17 elements — it runs a plain insertion sort
there, the regime of every concrete input below.  The underlying argsort
is therefore modelled as a stable insertion sort. -/
def sortRecords (rows : List CorrRecord) : List CorrRecord :=
  (List.insertionSort corrLe ((rows.filter (fun r => r.pct_subio.isSome)).reverse)).reverse
    ++ rows.filter (fun r => r.pct_subio.isNone)

/-- The candidate loop of `find_correlations` (app.py lines 459-507): per
column in table order, skipping the reference itself, the same-month
record then the next-month record (when each passes its overlap gate). -/
def correlationRows (cols : RetCols) (refTicker : String) (refMonth : ℕ) (downYears : List ℕ) (minOverlap : ℕ) : List CorrRecord :=
  cols.flatMap (fun tc =>
    if tc.1 == refTicker then []
    else
      (sameMonthRecord tc.1 tc.2 refMonth downYears minOverlap).toList
        ++ (nextMonthRecord tc.1 tc.2 refMonth downYears minOverlap).toList)

/-- `find_correlations` (app.py lines 440-512).  `returns[ref_ticker]`
raises `KeyError` on an unknown column, modelled by `none`; otherwise: the
reference column's data for the reference month, early empty return, the
down-years (`ref_up_years`, line 457, is computed but never used), the
candidate loop excluding the reference itself (same-month then next-month
record per candidate), and the final descending sort. -/
def find_correlations (cols : RetCols) (refTicker : String) (refMonth : ℕ) (minOverlap : ℕ) : Option (List CorrRecord) :=
  match lookupCol cols refTicker with
  | none => none
  | some refCol =>
    let refMonthData := refCol.filter (fun e => e.1.m == refMonth)
    if refMonthData.isEmpty then some []
    else
      let downYears := (refMonthData.filter (fun e => decide (e.2 < 0))).map (·.1.y)
      some (sortRecords (correlationRows cols refTicker refMonth downYears minOverlap))

/-! ## Concrete tables used by the counterexamples and witnesses -/

/-- A monthly price table whose column "A" has an interior gap: present in
January and March 2020, absent in February (column "B" is present
throughout, so the February row exists). -/
def gapPrices : PriceTable :=
  { tickers := ["A", "B"]
    rows := [(⟨2020, 1⟩, [some 10, some 1]),
             (⟨2020, 2⟩, [none, some 1]),
             (⟨2020, 3⟩, [some 20, some 1])] }

/-- December scenario: the reference "R" is negative in December 2020 and
the candidate "C" is positive in January 2021. -/
def decemberCols : RetCols :=
  [("R", [(⟨2020, 12⟩, -3)]),
   ("C", [(⟨2021, 1⟩, 2)])]

/-- A raw close series of 49 observations spread over 49 distinct months:
it fails only the 50-raw-observations threshold, not the months one. -/
def raw49 : List (MDate × ℚ) :=
  (List.range 49).map (fun i => (⟨2015 + i / 12, i % 12 + 1⟩, 1))

/-- Returns columns for two airline tickers: "AAL" is up in its single
March (exact win rate 100), "DAL" is up in two of three Marches (exact win
rate 200/3, rounded to 66.7 in its stats row). -/
def airlineCols : RetCols :=
  [("AAL", [(⟨2020, 3⟩, 5)]),
   ("DAL", [(⟨2018, 3⟩, 1), (⟨2019, 3⟩, 1), (⟨2020, 3⟩, -1)])]

/-- Reference "R" has March observations but no negative March: with
`min_overlap = 0` the candidate "C" still yields records. -/
def noDownCols : RetCols :=
  [("R", [(⟨2020, 3⟩, 1)]),
   ("C", [(⟨2019, 3⟩, 1)])]

/-- Same shape as `noDownCols`, with a reference down-year: at
`min_overlap = 0` the candidate's common-year set is empty and the
percentage division is reached. -/
def zeroOverlapCols : RetCols :=
  [("R", [(⟨2020, 3⟩, -1)]),
   ("C", [(⟨2019, 3⟩, 1)])]

/-- Reference "R" down in March 2020 and candidate "C" up the same March:
a minimal query emitting exactly one record. -/
def upCols : RetCols :=
  [("R", [(⟨2020, 3⟩, -1)]),
   ("C", [(⟨2020, 3⟩, 2)])]

/-- Hand-written seasonality rows: two airline instruments with March win
rates 60 and 80. -/
def marchStats : List StatRow :=
  [{ ticker := "AAL", month := 3, month_name := "Marzo", veces_subio := 3,
     veces_bajo := 2, total_anos := 5, pct_sube := 60, retorno_prom := 1 },
   { ticker := "DAL", month := 3, month_name := "Marzo", veces_subio := 4,
     veces_bajo := 1, total_anos := 5, pct_sube := 80, retorno_prom := 2 }]

/-! ## Helper lemmas -/

theorem pyRound_eq_floor_or_succ (q : ℚ) : pyRound q = ⌊q⌋ ∨ pyRound q = ⌊q⌋ + 1 := by
  unfold pyRound
  split_ifs <;> simp

theorem pyRound_close (q : ℚ) : |(pyRound q : ℚ) - q| ≤ 1/2 := by
  have h0 : (0 : ℚ) ≤ q - ⌊q⌋ := by
    have := Int.floor_le q
    linarith
  have h1 : q - ⌊q⌋ < 1 := by
    have := Int.lt_floor_add_one q
    linarith
  unfold pyRound
  split_ifs with ha hb hc <;>
    (rw [abs_le]; constructor <;> (push_cast; linarith))

theorem pyRound_bounds {a b : ℤ} {q : ℚ} (ha : (a : ℚ) ≤ q) (hb : q ≤ (b : ℚ)) :
    a ≤ pyRound q ∧ pyRound q ≤ b := by
  have h := abs_le.mp (pyRound_close q)
  constructor
  · have hlt : (a : ℚ) < (pyRound q : ℚ) + 1 := by linarith [h.1, h.2]
    have : a < pyRound q + 1 := by exact_mod_cast hlt
    omega
  · have hlt : (pyRound q : ℚ) < (b : ℚ) + 1 := by linarith [h.1, h.2]
    have : pyRound q < b + 1 := by exact_mod_cast hlt
    omega

theorem round1_close (q : ℚ) : |round1 q - q| ≤ 1/20 := by
  have h := abs_le.mp (pyRound_close (q * 10))
  unfold round1
  rw [abs_le]
  constructor <;> linarith [h.1, h.2]

theorem round1_bounds {q : ℚ} (h0 : 0 ≤ q) (h1 : q ≤ 100) :
    0 ≤ round1 q ∧ round1 q ≤ 100 := by
  have hb := @pyRound_bounds 0 1000 (q * 10) (by push_cast; linarith) (by push_cast; linarith)
  have hb1 : (0 : ℚ) ≤ (pyRound (q * 10) : ℚ) := by exact_mod_cast hb.1
  have hb2 : (pyRound (q * 10) : ℚ) ≤ 1000 := by exact_mod_cast hb.2
  unfold round1
  constructor <;> linarith

theorem countP_sign_split (l : List ℚ) :
    l.countP (fun v => decide (0 < v)) + l.countP (fun v => decide (v < 0))
      + l.countP (fun v => decide (v = 0)) = l.length := by
  induction l with
  | nil => simp
  | cons x xs ih =>
    simp only [List.countP_cons, List.length_cons]
    rcases lt_trichotomy 0 x with h | h | h
    · have e1 : decide (0 < x) = true := decide_eq_true h
      have e2 : decide (x < 0) = false := decide_eq_false (asymm h)
      have e3 : decide (x = 0) = false := decide_eq_false (by intro hx; rw [hx] at h; exact lt_irrefl 0 h)
      rw [e1, e2, e3]
      simp
      omega
    · have e1 : decide (0 < x) = false := decide_eq_false (by rw [← h]; exact lt_irrefl 0)
      have e2 : decide (x < 0) = false := decide_eq_false (by rw [← h]; exact lt_irrefl 0)
      have e3 : decide (x = 0) = true := decide_eq_true h.symm
      rw [e1, e2, e3]
      simp
      omega
    · have e1 : decide (0 < x) = false := decide_eq_false (asymm h)
      have e2 : decide (x < 0) = true := decide_eq_true h
      have e3 : decide (x = 0) = false := decide_eq_false (by intro hx; rw [hx] at h; exact lt_irrefl 0 h)
      rw [e1, e2, e3]
      simp
      omega

theorem nodup_subset_length {α : Type} [DecidableEq α] {l l2 : List α}
    (h : l.Nodup) (hs : l ⊆ l2) : l.length ≤ l2.length := by
  calc l.length = l.toFinset.card := (List.toFinset_card_of_nodup h).symm
    _ ≤ l2.toFinset.card := Finset.card_le_card (fun x hx => by
        simp only [List.mem_toFinset] at hx ⊢
        exact hs hx)
    _ ≤ l2.length := l2.toFinset_card_le

theorem zipWith_getElem? {α β γ : Type} (f : α → β → γ) :
    ∀ (l1 : List α) (l2 : List β) (i : ℕ),
      (List.zipWith f l1 l2)[i]? =
        match l1[i]?, l2[i]? with
        | some a, some b => some (f a b)
        | _, _ => none
  | [], l2, i => by simp
  | a :: l1, [], i => by simp
  | a :: l1, b :: l2, 0 => by simp
  | a :: l1, b :: l2, i + 1 => by
    simp only [List.zipWith_cons_cons, List.getElem?_cons_succ]
    exact zipWith_getElem? f l1 l2 i

theorem pctRows_map_fst : ∀ (prev : List (Option ℚ)) (rows : List (MDate × List (Option ℚ))),
    (pctRows prev rows).map (·.1) = rows.map (·.1)
  | _, [] => rfl
  | prev, r :: rs => by
    simp only [pctRows, List.map_cons]
    rw [pctRows_map_fst r.2 rs]

theorem zipWith_pctCell_getD {l1 l2 : List (Option ℚ)} {j n : ℕ}
    (h1 : l1.length = n) (h2 : l2.length = n) (hj : j < n) :
    (List.zipWith pctCell l1 l2).getD j none = pctCell (l1.getD j none) (l2.getD j none) := by
  rw [List.getD_eq_getElem?_getD, List.getD_eq_getElem?_getD, List.getD_eq_getElem?_getD,
    zipWith_getElem?]
  cases hx : l1[j]? with
  | none => rw [List.getElem?_eq_none_iff] at hx; omega
  | some a =>
    cases hy : l2[j]? with
    | none => rw [List.getElem?_eq_none_iff] at hy; omega
    | some b => simp

theorem pctRows_cell_succ :
    ∀ (prev : List (Option ℚ)) (rows : List (MDate × List (Option ℚ))) (n i j : ℕ),
      (∀ r ∈ rows, r.2.length = n) → i + 1 < rows.length → j < n →
      cellIdx (pctRows prev rows) (i + 1) j = pctCell (cellIdx rows i j) (cellIdx rows (i + 1) j)
  | prev, [], n, i, j, _, hi, _ => by simp at hi
  | prev, r :: rs, n, 0, j, hw, hi, hj => by
    match rs, hi with
    | r' :: rs', _ =>
      have hr : r.2.length = n := hw r (by simp)
      have hr' : r'.2.length = n := hw r' (by simp [List.mem_cons])
      simp only [pctRows, cellIdx, List.getElem?_cons_succ, List.getElem?_cons_zero]
      exact zipWith_pctCell_getD hr hr' hj
  | prev, r :: rs, n, i + 1, j, hw, hi, hj => by
    simp only [pctRows, cellIdx, List.getElem?_cons_succ]
    have := pctRows_cell_succ r.2 rs n i j (fun x hx => hw x (by simp [hx])) (by simp at hi; omega) hj
    simpa [cellIdx] using this

theorem pctRows_cell_zero (n j : ℕ) (r : MDate × List (Option ℚ))
    (rs : List (MDate × List (Option ℚ))) (hr : r.2.length = n) (hj : j < n) :
    cellIdx (pctRows (List.replicate n none) (r :: rs)) 0 j = none := by
  simp only [pctRows, cellIdx, List.getElem?_cons_zero]
  rw [zipWith_pctCell_getD (List.length_replicate n none) hr hj]
  have h1 : (List.replicate n (none : Option ℚ)).getD j none = none := by
    rw [List.getD_eq_getElem?_getD]
    cases hx : (List.replicate n (none : Option ℚ))[j]? with
    | none => rfl
    | some v =>
      have := List.getElem?_mem hx
      rw [List.eq_of_mem_replicate this] at hx ⊢
      rfl
  rw [h1]
  rfl

/-! ## Claim C1 -/

/-- Claim C1 (counterexample).  In `gapPrices`, column "A" (index 0) has a
present price 20 at 2020-03 and an earlier present price 10 at 2020-01,
with 2020-02 absent; yet `compute_monthly_returns` leaves the 2020-03
return cell of "A" absent, where the claim demands
`100 * (20 - 10) / 10`.  `pct_change(fill_method=None)` looks only at the
immediately preceding row, so a gap inside a column does not reach back to
the most recent earlier present price. -/
theorem c1_counterexample :
    cellAt gapPrices ⟨2020, 1⟩ 0 = some 10 ∧
    cellAt gapPrices ⟨2020, 2⟩ 0 = none ∧
    cellAt gapPrices ⟨2020, 3⟩ 0 = some 20 ∧
    cellAt (compute_monthly_returns gapPrices) ⟨2020, 3⟩ 0 = none ∧
    cellAt (compute_monthly_returns gapPrices) ⟨2020, 3⟩ 0 ≠ some (100 * (20 - 10) / 10) := by
  decide

/-- Claim C1 (amended).  For every monthly price table (with well-formed
rows), the return cell of column `j` at row `i + 1` is
`(p[i+1] / p[i] - 1) * 100` when the prices of that column at rows `i + 1`
and `i` are both present, and absent otherwise — the predecessor is the
immediately preceding row of the table, not the most recent earlier
present price; the first row of the table is absent in every column; rows
in which every column is absent are then dropped; and for a non-zero
predecessor the value agrees with the claim's formula
`100 * (p - p_prev) / p_prev`. -/
theorem c1_adjacent_row_returns (t : PriceTable)
    (hw : ∀ r ∈ t.rows, r.2.length = t.tickers.length) :
    ((compute_monthly_returns t).rows =
      (pctRows (List.replicate t.tickers.length none) t.rows).filter
        (fun r => !(r.2.all Option.isNone))) ∧
    ((pctRows (List.replicate t.tickers.length none) t.rows).map (·.1) = t.rows.map (·.1)) ∧
    (∀ j r rs, t.rows = r :: rs → j < t.tickers.length →
      cellIdx (pctRows (List.replicate t.tickers.length none) t.rows) 0 j = none) ∧
    (∀ i j, i + 1 < t.rows.length → j < t.tickers.length →
      cellIdx (pctRows (List.replicate t.tickers.length none) t.rows) (i + 1) j
        = pctCell (cellIdx t.rows i j) (cellIdx t.rows (i + 1) j)) ∧
    (∀ p q : ℚ, q ≠ 0 → pctCell (some q) (some p) = some (100 * (p - q) / q)) := by
  refine ⟨rfl, pctRows_map_fst _ _, ?_, ?_, ?_⟩
  · intro j r rs hrows hj
    rw [hrows]
    exact pctRows_cell_zero _ j r rs (hw r (by rw [hrows]; simp)) hj
  · intro i j hi hj
    exact pctRows_cell_succ _ _ _ i j hw hi hj
  · intro p q hq
    simp only [pctCell, Option.some_inj]
    field_simp
    ring

/-- Claim C1 (amended, witness): the amended characterization evaluated on
`gapPrices` at row 2, column "A". -/
theorem c1_adjacent_row_returns_witness :
    cellIdx (pctRows (List.replicate gapPrices.tickers.length none) gapPrices.rows) 2 0
      = pctCell (cellIdx gapPrices.rows 1 0) (cellIdx gapPrices.rows 2 0) :=
  (c1_adjacent_row_returns gapPrices (by decide)).2.2.2.1 1 0 (by decide) (by decide)

/-! ## Claim C4 -/

/-- Claim C4 (counterexample).  `raw49` has 49 raw observations spread over
49 distinct months: it fails only the raw-count threshold and not the
months threshold, yet the resampling step drops it — the two thresholds
are combined with *or*, not the claimed *and*. -/
theorem c4_counterexample :
    resample_step (some raw49) = none ∧
    raw49.length = 49 ∧ (lastPerMonth raw49).length = 49 ∧
    ¬(raw49.length < 50 ∧ (lastPerMonth raw49).length < 10) := by
  refine ⟨by decide, by decide, by decide, by decide⟩

/-- Claim C4 (amended).  The per-ticker resampling result is absent exactly
when the input is absent, or the raw series has fewer than 50 observations,
or the monthly series has at most 10 months — each threshold is applied
independently (a disjunction, and the month bound is `≤ 10`, not
`< 10`); otherwise the result is the last-observation-per-month series. -/
theorem c4_resample_thresholds :
    resample_step none = none ∧
    (∀ close, resample_step (some close) = none ↔
      (close.length < 50 ∨ (lastPerMonth close).length ≤ 10)) ∧
    (∀ close, 50 ≤ close.length → 10 < (lastPerMonth close).length →
      resample_step (some close) = some (lastPerMonth close)) := by
  have hr : ∀ close : List (MDate × ℚ), resample_step (some close)
      = if close.length < 50 then none
        else if 10 < (lastPerMonth close).length then some (lastPerMonth close) else none :=
    fun close => rfl
  refine ⟨rfl, ?_, ?_⟩
  · intro close
    rw [hr]
    split_ifs with h1 h2
    · simp only [true_iff]
      left
      exact h1
    · simp only [reduceCtorEq, false_iff, not_or]
      omega
    · simp only [true_iff]
      right
      omega
  · intro close h1 h2
    rw [hr, if_neg (by omega), if_pos h2]

/-- Claim C4 (amended, witness): a 50-observation series covering 11
distinct months passes both thresholds and is kept. -/
theorem c4_resample_thresholds_witness :
    resample_step (some ((List.range 50).map (fun i => (⟨2015, i % 11 + 1⟩, (1 : ℚ)))))
      = some (lastPerMonth ((List.range 50).map (fun i => (⟨2015, i % 11 + 1⟩, (1 : ℚ))))) :=
  c4_resample_thresholds.2.2 _ (by decide) (by decide)

/-! ## Claim C5 -/

/-- Claim C5 (confirmed).  For every instrument column and calendar month:
a pair with zero observations emits no record; otherwise the emitted
record counts strict ups (`> 0`) and strict downs (`< 0`), its total is
the count of all present returns, `veces_subio + veces_bajo ≤ total_años`
with equality failing exactly when some return is exactly zero, and
`pct_sube` is `veces_subio / total_años * 100` (denominator all
observations, zeros included) up to rounding (within 1/20, one decimal). -/
theorem c5_seasonality_counts (t : String) (col : List (MDate × ℚ)) (m : ℕ) :
    (monthVals col m = [] → monthlyStatRow t col m = none) ∧
    (∀ rec, monthlyStatRow t col m = some rec →
      rec.veces_subio = (monthVals col m).countP (fun v => decide (0 < v)) ∧
      rec.veces_bajo = (monthVals col m).countP (fun v => decide (v < 0)) ∧
      rec.total_anos = (monthVals col m).length ∧
      rec.veces_subio + rec.veces_bajo ≤ rec.total_anos ∧
      (rec.veces_subio + rec.veces_bajo = rec.total_anos ↔ ∀ v ∈ monthVals col m, v ≠ 0) ∧
      rec.pct_sube = round1 ((rec.veces_subio : ℚ) / rec.total_anos * 100) ∧
      |rec.pct_sube - (rec.veces_subio : ℚ) / rec.total_anos * 100| ≤ 1/20) := by
  constructor
  · intro h
    unfold monthlyStatRow
    rw [h]
    rfl
  · intro rec hrec
    simp only [monthlyStatRow] at hrec
    split_ifs at hrec with hne
    rw [Option.some_inj] at hrec
    subst hrec
    have hsplit := countP_sign_split (monthVals col m)
    have hz : (monthVals col m).countP (fun v => decide (v = 0)) = 0 ↔
        ∀ v ∈ monthVals col m, v ≠ 0 := by
      rw [List.countP_eq_zero]
      constructor
      · intro h v hv hv0
        exact absurd (decide_eq_true hv0) (by simpa using h v hv)
      · intro h v hv
        simpa using h v hv
    refine ⟨rfl, rfl, rfl, ?_, ?_, rfl, ?_⟩
    · show (monthVals col m).countP (fun v => decide (0 < v)) +
        (monthVals col m).countP (fun v => decide (v < 0)) ≤ (monthVals col m).length
      omega
    · show (monthVals col m).countP (fun v => decide (0 < v)) +
          (monthVals col m).countP (fun v => decide (v < 0)) = (monthVals col m).length ↔
        ∀ v ∈ monthVals col m, v ≠ 0
      rw [← hz]
      constructor
      · intro he
        omega
      · intro he
        omega
    · exact round1_close _

/-- Claim C5 (witness): the theorem applied to a column with March returns
1 and 0 — one up, zero downs, two observations (the zero counts in the
denominator), `pct_sube = round1 50 = 50`. -/
theorem c5_seasonality_counts_witness :
    let r0 : StatRow :=
      { ticker := "X", month := 3, month_name := "Marzo", veces_subio := 1,
        veces_bajo := 0, total_anos := 2, pct_sube := 50, retorno_prom := 1/2 }
    r0.veces_subio = (monthVals [(⟨2020, 3⟩, 1), (⟨2021, 3⟩, 0)] 3).countP (fun v => decide (0 < v)) ∧
    r0.veces_bajo = (monthVals [(⟨2020, 3⟩, 1), (⟨2021, 3⟩, 0)] 3).countP (fun v => decide (v < 0)) ∧
    r0.total_anos = (monthVals [(⟨2020, 3⟩, 1), (⟨2021, 3⟩, 0)] 3).length ∧
    r0.veces_subio + r0.veces_bajo ≤ r0.total_anos ∧
    (r0.veces_subio + r0.veces_bajo = r0.total_anos ↔
      ∀ v ∈ monthVals [(⟨2020, 3⟩, 1), (⟨2021, 3⟩, 0)] 3, v ≠ 0) ∧
    r0.pct_sube = round1 ((r0.veces_subio : ℚ) / r0.total_anos * 100) ∧
    |r0.pct_sube - (r0.veces_subio : ℚ) / r0.total_anos * 100| ≤ 1/20 :=
  (c5_seasonality_counts "X" [(⟨2020, 3⟩, 1), (⟨2021, 3⟩, 0)] 3).2 _ (by with_unfolding_all rfl)

/-! ## Claim C8 -/


theorem coerceClean_length (cells : List (MDate × RawCell)) :
    (coerceClean cells).length = cells.countP isNumCell := by
  induction cells with
  | nil => rfl
  | cons e es ih =>
    cases h : e.2 with
    | num q =>
      simp only [coerceClean, List.filterMap_cons, h, List.countP_cons, isNumCell]
      simp only [coerceClean] at ih
      simp [ih]
    | bad =>
      simp only [coerceClean, List.filterMap_cons, h, List.countP_cons, isNumCell]
      simp only [coerceClean] at ih
      simp [ih]

theorem coerceClean_mem {cells : List (MDate × RawCell)} {e : MDate × ℚ}
    (h : e ∈ coerceClean cells) : (e.1, RawCell.num e.2) ∈ cells := by
  unfold coerceClean at h
  rw [List.mem_filterMap] at h
  obtain ⟨a, ha, hfa⟩ := h
  cases hc : a.2 with
  | num q =>
    rw [hc] at hfa
    simp only [Option.some_inj] at hfa
    have h1 : e.1 = a.1 := by rw [← hfa]
    have h2 : e.2 = q := by rw [← hfa]
    rw [h1, h2, ← hc]
    exact ha
  | bad =>
    rw [hc] at hfa
    simp at hfa

/-- Claim C8 (confirmed).  For every raw provider frame (any of the known
column arrangements, empty, or malformed) and ticker, the normalizer is a
total function returning absent or a non-empty numeric series; when it
returns a series, the series is exactly the coercible entries of the
selected raw column (entries failing coercion are dropped, every returned
value comes from a coercible cell), and a selected column with zero
coercible entries yields absent. -/
theorem c8_normalizer_total (f : RawFrame) (ticker : String) :
    (∀ s, extract_close_series f ticker = some s →
      s ≠ [] ∧ ∃ col, selectRawColumn f ticker = some col ∧ s = coerceClean col ∧
        s.length = col.countP isNumCell ∧
        ∀ e ∈ s, (e.1, RawCell.num e.2) ∈ col) ∧
    (∀ col, selectRawColumn f ticker = some col → coerceClean col = [] →
      extract_close_series f ticker = none) := by
  constructor
  · intro s hs
    unfold extract_close_series at hs
    cases hsel : selectRawColumn f ticker with
    | none => rw [hsel] at hs; simp at hs
    | some col =>
      rw [hsel] at hs
      simp only at hs
      split_ifs at hs with hemp
      rw [Option.some_inj] at hs
      subst hs
      refine ⟨by simpa [List.isEmpty_iff] using hemp, col, rfl, rfl, coerceClean_length col, ?_⟩
      intro e he
      exact coerceClean_mem he
  · intro col hsel hnil
    unfold extract_close_series
    rw [hsel]
    simp only
    rw [if_pos (by simpa [List.isEmpty_iff] using hnil)]

/-- Claim C8 (witness): the normalizer applied to a Formato B frame
(`("Close", ticker)` columns) with one non-coercible cell, which is
dropped. -/
theorem c8_normalizer_total_witness :
    let f : RawFrame := .multi [(("Close", "AAPL"),
      [(⟨2020, 1⟩, .num 10), (⟨2020, 2⟩, .bad), (⟨2020, 3⟩, .num 11)])]
    let s : List (MDate × ℚ) := [(⟨2020, 1⟩, 10), (⟨2020, 3⟩, 11)]
    s ≠ [] ∧ ∃ col, selectRawColumn f "AAPL" = some col ∧ s = coerceClean col ∧
      s.length = col.countP isNumCell ∧
      ∀ e ∈ s, (e.1, RawCell.num e.2) ∈ col :=
  (c8_normalizer_total _ "AAPL").1 _ (by with_unfolding_all rfl)

/-! ## Claim C9 -/

theorem contains_filter_sector (available : List String) (s a : String) (ha : a ∈ available) :
    (available.filter (fun t => get_ticker_sector t == s)).contains a
      = (get_ticker_sector a == s) := by
  cases hgs : get_ticker_sector a == s with
  | true =>
    exact List.elem_iff.mpr (List.mem_filter.mpr ⟨ha, hgs⟩)
  | false =>
    rw [Bool.eq_false_iff]
    intro hc
    have hmem := List.mem_filter.mp (List.elem_iff.mp hc)
    rw [hmem.2] at hgs
    cases hgs

/-- Claim C9 (confirmed).  When every stats row's ticker is among the
available tickers: the per-sector aggregation of `chart_sector_best_month`
selects exactly the seasonality rows of the instruments mapped to the
requested sector for the requested month, emits nothing when none match,
and otherwise outputs the arithmetic means of the selected rows' win rates
and mean returns together with the count of contributing rows; the chart
emits one such row per selected sector.  Concretely, two instruments of
sector "Aerolíneas" with March win rates 60 and 80 yield the sector row
with mean win rate 70 and count 2. -/
theorem c9_sector_aggregation :
    (∀ (stats : List StatRow) (available : List String) (selected : List String) (m : ℕ) (s : String),
      (∀ r ∈ stats, r.ticker ∈ available) →
      (sectorRowFor stats available m s = none ↔
        stats.filter (fun r => get_ticker_sector r.ticker == s && r.month == m) = []) ∧
      (∀ row, sectorRowFor stats available m s = some row →
        row.win_rate = meanD ((stats.filter (fun r => get_ticker_sector r.ticker == s && r.month == m)).map (·.pct_sube)) ∧
        row.retorno_prom = meanD ((stats.filter (fun r => get_ticker_sector r.ticker == s && r.month == m)).map (·.retorno_prom)) ∧
        row.n_tickers = (stats.filter (fun r => get_ticker_sector r.ticker == s && r.month == m)).length) ∧
      chart_sector_best_month stats available selected m
        = selected.filterMap (sectorRowFor stats available m)) ∧
    chart_sector_best_month marchStats ["AAL", "DAL"] ["Aerolíneas"] 3 =
      [{ sector := "Aerolíneas", win_rate := 70, retorno_prom := 3/2, n_tickers := 2,
         mejor_ticker := "DAL", mejor_wr := 80 }] := by
  constructor
  · intro stats available selected m s h
    have hfilter :
        stats.filter (fun r =>
          (available.filter (fun t => get_ticker_sector t == s)).contains r.ticker && r.month == m)
          = stats.filter (fun r => get_ticker_sector r.ticker == s && r.month == m) := by
      apply List.filter_congr
      intro r hr
      rw [contains_filter_sector available s r.ticker (h r hr)]
    simp only [sectorRowFor]
    rw [hfilter]
    by_cases hst : (available.filter (fun t => get_ticker_sector t == s)).isEmpty
    · have hsel : stats.filter (fun r => get_ticker_sector r.ticker == s && r.month == m) = [] := by
        rw [List.eq_nil_iff_forall_not_mem]
        intro r hrmem
        have hm2 := List.mem_filter.mp hrmem
        have hand := hm2.2
        rw [Bool.and_eq_true] at hand
        have h3 : r.ticker ∈ available.filter (fun t => get_ticker_sector t == s) :=
          List.mem_filter.mpr ⟨h r hm2.1, hand.1⟩
        rw [List.isEmpty_iff] at hst
        rw [hst] at h3
        cases h3
      rw [if_pos hst]
      refine ⟨by simp [hsel], by simp, rfl⟩
    · rw [if_neg hst]
      by_cases hse : (stats.filter (fun r => get_ticker_sector r.ticker == s && r.month == m)).isEmpty
      · rw [if_pos hse]
        rw [List.isEmpty_iff] at hse
        refine ⟨by simp [hse], by simp, rfl⟩
      · rw [if_neg hse]
        rw [List.isEmpty_iff] at hse
        refine ⟨by simp [hse], ?_, rfl⟩
        intro row hrow
        rw [Option.some_inj] at hrow
        subst hrow
        exact ⟨rfl, rfl, rfl⟩
  · with_unfolding_all rfl

/-- Claim C9 (witness): the general part applied to the concrete March
scenario. -/
theorem c9_sector_aggregation_witness :
    sectorRowFor marchStats ["AAL", "DAL"] 3 "Aerolíneas" = none ↔
      marchStats.filter (fun r => get_ticker_sector r.ticker == "Aerolíneas" && r.month == 3) = [] :=
  ((c9_sector_aggregation.1 marchStats ["AAL", "DAL"] ["Aerolíneas"] 3 "Aerolíneas")
    (by with_unfolding_all decide)).1

/-! ## Claim C6 -/

/-- Claim C6 (counterexample).  For `airlineCols` the exact March win rates
are 100 and 200/3; the finalized records carry the rounded values 100 and
66.7; the "Aerolíneas" sector row averages the *rounded* values, giving
83.35, which differs from 250/3 (the mean of the unrounded win rates) —
so the sector aggregation does operate on already-rounded values. -/
theorem c6_counterexample :
    (get_monthly_stats airlineCols).map (fun r => ((r.veces_subio : ℚ) / r.total_anos * 100))
      = [100, 200/3] ∧
    (get_monthly_stats airlineCols).map (·.pct_sube) = [100, 667/10] ∧
    (sectorRowFor (get_monthly_stats airlineCols) ["AAL", "DAL"] 3 "Aerolíneas").map (·.win_rate)
      = some (1667/20) ∧
    meanD [(100 : ℚ), 200/3] = 250/3 ∧
    (1667/20 : ℚ) ≠ 250/3 := by
  refine ⟨by with_unfolding_all rfl, by with_unfolding_all rfl, by with_unfolding_all rfl,
    by with_unfolding_all rfl, by with_unfolding_all decide⟩

/-- Claim C6 (amended).  Rounding is applied once, when each seasonality
record is finalized (one decimal for the win rate, two decimals for the
mean return); the downstream sector aggregations then consume those
already-rounded record fields: the sector row's `win_rate` and
`retorno_prom` are means of the records' rounded values, and the sector
comparison chart's `valor` is the mean of the records' rounded metric
field. -/
theorem c6_rounding_at_finalization :
    (∀ t col m rec, monthlyStatRow t col m = some rec →
      rec.pct_sube = round1 (((monthVals col m).countP (fun v => decide (0 < v)) : ℚ)
        / (monthVals col m).length * 100) ∧
      rec.retorno_prom = round2 ((monthVals col m).sum / (monthVals col m).length)) ∧
    (∀ stats available m s row, sectorRowFor stats available m s = some row →
      row.win_rate = meanD ((stats.filter (fun r =>
        (available.filter (fun t => get_ticker_sector t == s)).contains r.ticker
          && r.month == m)).map (·.pct_sube)) ∧
      row.retorno_prom = meanD ((stats.filter (fun r =>
        (available.filter (fun t => get_ticker_sector t == s)).contains r.ticker
          && r.month == m)).map (·.retorno_prom))) ∧
    (∀ stats available selected metric row,
      row ∈ chart_sector_monthly_comparison stats available selected metric →
      row.valor = meanD (((stats.filter (fun r =>
        (available.filter (fun t => get_ticker_sector t == row.sector)).contains r.ticker)).filter
          (fun r => r.month == row.month)).map (metricField metric))) := by
  refine ⟨?_, ?_, ?_⟩
  · intro t col m rec hrec
    simp only [monthlyStatRow] at hrec
    split_ifs at hrec with hne
    rw [Option.some_inj] at hrec
    subst hrec
    exact ⟨rfl, rfl⟩
  · intro stats available m s row hrow
    simp only [sectorRowFor] at hrow
    split_ifs at hrow with h1 h2
    rw [Option.some_inj] at hrow
    subst hrow
    exact ⟨rfl, rfl⟩
  · intro stats available selected metric row hrow
    simp only [chart_sector_monthly_comparison] at hrow
    rw [List.mem_flatMap] at hrow
    obtain ⟨sector, hsec, hin⟩ := hrow
    by_cases hemp : (available.filter (fun t => get_ticker_sector t == sector)).isEmpty
    · rw [if_pos hemp] at hin
      cases hin
    · rw [if_neg hemp] at hin
      rw [List.mem_filterMap] at hin
      obtain ⟨month, hm, hg⟩ := hin
      by_cases hmd : ((stats.filter (fun r =>
          (available.filter (fun t => get_ticker_sector t == sector)).contains r.ticker)).filter
            (fun r => r.month == month)).isEmpty
      · rw [if_pos hmd] at hg
        cases hg
      · rw [if_neg hmd] at hg
        rw [Option.some_inj] at hg
        subst hg
        rfl

/-- Claim C6 (amended, witness): the sector-row conjunct applied to the
concrete March scenario. -/
theorem c6_rounding_at_finalization_witness :
    let row : SectorRow :=
      { sector := "Aerolíneas", win_rate := 70, retorno_prom := 3/2, n_tickers := 2,
        mejor_ticker := "DAL", mejor_wr := 80 }
    row.win_rate = meanD ((marchStats.filter (fun r =>
      ((["AAL", "DAL"].filter (fun t => get_ticker_sector t == "Aerolíneas")).contains r.ticker
        && r.month == 3))).map (·.pct_sube)) ∧
    row.retorno_prom = meanD ((marchStats.filter (fun r =>
      ((["AAL", "DAL"].filter (fun t => get_ticker_sector t == "Aerolíneas")).contains r.ticker
        && r.month == 3))).map (·.retorno_prom)) :=
  c6_rounding_at_finalization.2.1 marchStats ["AAL", "DAL"] 3 "Aerolíneas" _
    (by with_unfolding_all rfl)

/-! ## Claim C3 -/

theorem periodRecord_isSome (ticker periodo : String) (mesNum : ℕ) (dat : List (MDate × ℚ))
    (yrs : List ℕ) (minOverlap : ℕ) :
    (periodRecord ticker periodo mesNum dat yrs minOverlap).isSome ↔
      minOverlap ≤ (yrs.filter (fun y => (dat.map (·.1.y)).contains y)).length := by
  simp only [periodRecord]
  split_ifs with h h0
  · exact ⟨fun _ => h, fun _ => rfl⟩
  · exact ⟨fun _ => h, fun _ => rfl⟩
  · constructor
    · intro hx
      simp at hx
    · intro hx
      exact absurd hx h

theorem periodRecord_fields (ticker periodo : String) (mesNum : ℕ) (dat : List (MDate × ℚ))
    (yrs : List ℕ) (minOverlap : ℕ) (rec : CorrRecord)
    (h : periodRecord ticker periodo mesNum dat yrs minOverlap = some rec) :
    rec.n_anos = (yrs.filter (fun y => (dat.map (·.1.y)).contains y)).length ∧
    rec.mes = MONTHS_ES mesNum := by
  simp only [periodRecord] at h
  split_ifs at h with h1 h2
  · rw [Option.some_inj] at h
    subst h
    exact ⟨rfl, rfl⟩
  · rw [Option.some_inj] at h
    subst h
    exact ⟨rfl, rfl⟩

/-- Claim C3 (confirmed).  The next-month period uses calendar month
`m % 12 + 1`; for December (`m = 12`, next month January) every down-year
`y` is shifted to `y + 1` *before* the intersection with the candidate's
January years, so the gate and `n_años` count exactly the down-years `y`
whose following January `y + 1` the candidate covers; for `m ≠ 12` the
down-years are used unshifted.  Concretely, a reference negative in
December 2020 and a candidate positive in January 2021 produce (with
overlap 1) a next-month record crediting that single common year. -/
theorem c3_december_next_month :
    (∀ (t : String) (col : List (MDate × ℚ)) (downYears : List ℕ) (minOverlap : ℕ),
      nextMonthRecord t col 12 downYears minOverlap
        = periodRecord t "Mes siguiente" 1 (col.filter (fun e => e.1.m == 1))
            (downYears.map (· + 1)) minOverlap ∧
      ((nextMonthRecord t col 12 downYears minOverlap).isSome ↔
        minOverlap ≤ (downYears.filter (fun y =>
          ((col.filter (fun e => e.1.m == 1)).map (·.1.y)).contains (y + 1))).length) ∧
      (∀ rec, nextMonthRecord t col 12 downYears minOverlap = some rec →
        rec.n_anos = (downYears.filter (fun y =>
          ((col.filter (fun e => e.1.m == 1)).map (·.1.y)).contains (y + 1))).length ∧
        rec.mes = "Enero")) ∧
    (∀ (t : String) (col : List (MDate × ℚ)) (m : ℕ) (downYears : List ℕ) (minOverlap : ℕ),
      m ≠ 12 →
      nextMonthRecord t col m downYears minOverlap
        = periodRecord t "Mes siguiente" (m % 12 + 1)
            (col.filter (fun e => e.1.m == m % 12 + 1)) downYears minOverlap) ∧
    find_correlations decemberCols "R" 12 1
      = some [{ ticker := "C", periodo := "Mes siguiente", mes := "Enero", n_anos := 1,
                subio_cuando_ref_bajo := 1, pct_subio := some 100, retorno_prom := some 2 }] := by
  have hcommon : ∀ (col : List (MDate × ℚ)) (downYears : List ℕ),
      ((downYears.map (· + 1)).filter
        (fun y => ((col.filter (fun e => e.1.m == 1)).map (·.1.y)).contains y))
        = (downYears.filter
            (fun y => ((col.filter (fun e => e.1.m == 1)).map (·.1.y)).contains (y + 1))).map
              (· + 1) := by
    intro col downYears
    rw [List.filter_map]
    rfl
  refine ⟨?_, ?_, ?_⟩
  · intro t col downYears minOverlap
    have heq : nextMonthRecord t col 12 downYears minOverlap
        = periodRecord t "Mes siguiente" 1 (col.filter (fun e => e.1.m == 1))
            (downYears.map (· + 1)) minOverlap := rfl
    refine ⟨heq, ?_, ?_⟩
    · rw [heq, periodRecord_isSome, hcommon, List.length_map]
    · intro rec hrec
      rw [heq] at hrec
      have hf := periodRecord_fields _ _ _ _ _ _ _ hrec
      exact ⟨by rw [hf.1, hcommon, List.length_map], hf.2⟩
  · intro t col m downYears minOverlap hm
    have hb : (m == 12) = false := by simpa using hm
    simp [nextMonthRecord, hb]
  · with_unfolding_all rfl

/-- Claim C3 (witness): the unshifted branch applied at reference month 3,
and the December shift evaluated on the concrete scenario. -/
theorem c3_december_next_month_witness :
    nextMonthRecord "C" [(⟨2021, 4⟩, (2 : ℚ))] 3 [2021] 1
      = periodRecord "C" "Mes siguiente" (3 % 12 + 1)
          ([(⟨2021, 4⟩, (2 : ℚ))].filter (fun e => e.1.m == 3 % 12 + 1)) [2021] 1 :=
  c3_december_next_month.2.1 "C" [(⟨2021, 4⟩, (2 : ℚ))] 3 [2021] 1 (by decide)

/-! ## Claim C7 -/

theorem flatMap_eq_nil_of {α β : Type} (l : List α) (f : α → List β)
    (h : ∀ x ∈ l, f x = []) : l.flatMap f = [] := by
  induction l with
  | nil => rfl
  | cons x xs ih =>
    rw [List.flatMap_cons, h x (by simp), List.nil_append]
    exact ih (fun y hy => h y (by simp [hy]))

theorem periodRecord_none_of_nil_years (ticker periodo : String) (mesNum : ℕ)
    (dat : List (MDate × ℚ)) (minOverlap : ℕ) (h : 1 ≤ minOverlap) :
    periodRecord ticker periodo mesNum dat [] minOverlap = none := by
  simp only [periodRecord]
  rw [if_neg]
  simp only [List.filter_nil, List.length_nil]
  omega

/-- Claim C7 (amended).  With `minOverlapYears ≥ 1`, a reference
instrument with zero negative-return years in the reference month (in
particular one with no observations at all for that month) makes
`find_correlations` return the empty record sequence, without any fault.
The claim's universal quantification over `minOverlapYears` fails at 0:
there every candidate is emitted with an empty common-year set (see the
counterexample). -/
theorem c7_no_down_years_empty (cols : RetCols) (refTicker : String) (refMonth : ℕ)
    (minOverlap : ℕ) (refCol : List (MDate × ℚ))
    (hmin : 1 ≤ minOverlap)
    (href : lookupCol cols refTicker = some refCol)
    (hdown : (refCol.filter (fun e => e.1.m == refMonth)).filter (fun e => decide (e.2 < 0)) = []) :
    find_correlations cols refTicker refMonth minOverlap = some [] := by
  unfold find_correlations
  rw [href]
  simp only
  by_cases hemp : (refCol.filter (fun e => e.1.m == refMonth)).isEmpty
  · rw [if_pos hemp]
  · rw [if_neg hemp]
    have hrows : correlationRows cols refTicker refMonth
        (((refCol.filter (fun e => e.1.m == refMonth)).filter
          (fun e => decide (e.2 < 0))).map (·.1.y)) minOverlap = [] := by
      unfold correlationRows
      apply flatMap_eq_nil_of
      intro tc _
      rw [hdown]
      by_cases htc : tc.1 == refTicker
      · rw [if_pos htc]
      · rw [if_neg htc]
        have h1 : sameMonthRecord tc.1 tc.2 refMonth
            (([] : List (MDate × ℚ)).map (·.1.y)) minOverlap = none := by
          unfold sameMonthRecord
          exact periodRecord_none_of_nil_years _ _ _ _ _ hmin
        have h2 : nextMonthRecord tc.1 tc.2 refMonth
            (([] : List (MDate × ℚ)).map (·.1.y)) minOverlap = none := by
          unfold nextMonthRecord
          by_cases h12 : refMonth == 12
          · rw [if_pos h12]
            exact periodRecord_none_of_nil_years _ _ _ _ _ hmin
          · rw [if_neg h12]
            exact periodRecord_none_of_nil_years _ _ _ _ _ hmin
        rw [h1, h2]
        rfl
    rw [hrows]
    rfl

/-- Claim C7 (witness): the amended theorem applied to `noDownCols` (the
reference has March observations but none negative) at overlap 1. -/
theorem c7_no_down_years_empty_witness :
    find_correlations noDownCols "R" 3 1 = some [] :=
  c7_no_down_years_empty noDownCols "R" 3 1 ([(⟨2020, 3⟩, 1)] : List (MDate × ℚ)) (by decide)
    (by with_unfolding_all rfl) (by with_unfolding_all rfl)

/-- Claim C7 (counterexample).  The same reference — zero negative-return
years in March — with `minOverlapYears = 0` does *not* produce an empty
sequence: the candidate "C" passes the vacuous overlap gate with an empty
common-year set in both periods, so the claim as universally quantified
over `minOverlapYears` is false. -/
theorem c7_counterexample :
    lookupCol noDownCols "R" = some [(⟨2020, 3⟩, 1)] ∧
    (([((⟨2020, 3⟩ : MDate), (1 : ℚ))]).filter (fun e => e.1.m == 3)).filter
      (fun e => decide (e.2 < 0)) = [] ∧
    find_correlations noDownCols "R" 3 0
      = some [{ ticker := "C", periodo := "Mismo mes", mes := "Marzo", n_anos := 0,
                subio_cuando_ref_bajo := 0, pct_subio := none, retorno_prom := none },
              { ticker := "C", periodo := "Mes siguiente", mes := "Abril", n_anos := 0,
                subio_cuando_ref_bajo := 0, pct_subio := none, retorno_prom := none }] ∧
    find_correlations noDownCols "R" 3 0 ≠ some [] := by
  refine ⟨by with_unfolding_all rfl, by with_unfolding_all rfl, by with_unfolding_all rfl, ?_⟩
  intro h
  rw [(by with_unfolding_all rfl : find_correlations noDownCols "R" 3 0
    = some [{ ticker := "C", periodo := "Mismo mes", mes := "Marzo", n_anos := 0,
              subio_cuando_ref_bajo := 0, pct_subio := none, retorno_prom := none },
            { ticker := "C", periodo := "Mes siguiente", mes := "Abril", n_anos := 0,
              subio_cuando_ref_bajo := 0, pct_subio := none, retorno_prom := none }])] at h
  simp at h

/-! ## Claim C2 -/

theorem map_y_nodup_of_fixed_m (l : List MDate) (m : ℕ)
    (h : l.Nodup) (hm : ∀ d ∈ l, d.m = m) : (l.map MDate.y).Nodup := by
  induction l with
  | nil => simp
  | cons d ds ih =>
    rw [List.nodup_cons] at h
    rw [List.map_cons, List.nodup_cons]
    constructor
    · intro hmem
      rw [List.mem_map] at hmem
      obtain ⟨d', hd', hy⟩ := hmem
      have he : d' = d := by
        have h1 : d'.m = m := hm d' (by simp [hd'])
        have h2 : d.m = m := hm d (by simp)
        cases d
        cases d'
        simp only [MDate.mk.injEq]
        simp only at hy h1 h2
        exact ⟨hy, h1.trans h2.symm⟩
      rw [he] at hd'
      exact h.1 hd'
    · exact ih h.2 (fun d' hd' => hm d' (by simp [hd']))

theorem filtered_years_nodup (col : List (MDate × ℚ)) (m : ℕ)
    (h : (col.map (·.1)).Nodup) :
    ((col.filter (fun e => e.1.m == m)).map (·.1.y)).Nodup := by
  have hsub : ((col.filter (fun e => e.1.m == m)).map (·.1)).Sublist (col.map (·.1)) :=
    (col.filter_sublist).map (·.1)
  have hnd : ((col.filter (fun e => e.1.m == m)).map (·.1)).Nodup := h.sublist hsub
  have hmm : ∀ d ∈ (col.filter (fun e => e.1.m == m)).map (·.1), d.m = m := by
    intro d hd
    rw [List.mem_map] at hd
    obtain ⟨e, he, hde⟩ := hd
    have := (List.mem_filter.mp he).2
    rw [← hde]
    simpa using this
  have := map_y_nodup_of_fixed_m _ m hnd hmm
  rw [List.map_map] at this
  exact this

theorem periodRecord_bounds (ticker periodo : String) (mesNum : ℕ) (dat : List (MDate × ℚ))
    (yrs : List ℕ) (minOverlap : ℕ) (rec : CorrRecord)
    (hmin : 1 ≤ minOverlap)
    (hnd : (dat.map (·.1.y)).Nodup)
    (h : periodRecord ticker periodo mesNum dat yrs minOverlap = some rec) :
    minOverlap ≤ rec.n_anos ∧ rec.subio_cuando_ref_bajo ≤ rec.n_anos ∧
    ∃ q, rec.pct_subio = some q ∧ 0 ≤ q ∧ q ≤ 100 ∧ rec.retorno_prom.isSome := by
  simp only [periodRecord] at h
  split_ifs at h with hg h0
  · exact absurd hg (by omega)
  · rw [Option.some_inj] at h
    subst h
    have hsubio : ((dat.filter (fun e =>
        (yrs.filter (fun y => (dat.map (·.1.y)).contains y)).contains e.1.y)).map (·.2)).countP
          (fun v => decide (0 < v))
        ≤ (yrs.filter (fun y => (dat.map (·.1.y)).contains y)).length := by
      have h1 : ((dat.filter (fun e =>
          (yrs.filter (fun y => (dat.map (·.1.y)).contains y)).contains e.1.y)).map (·.2)).countP
            (fun v => decide (0 < v))
          ≤ (dat.filter (fun e =>
            (yrs.filter (fun y => (dat.map (·.1.y)).contains y)).contains e.1.y)).length := by
        have := List.countP_le_length (p := fun v => decide ((0 : ℚ) < v))
          (l := (dat.filter (fun e =>
            (yrs.filter (fun y => (dat.map (·.1.y)).contains y)).contains e.1.y)).map (·.2))
        simpa using this
      have h2 : ((dat.filter (fun e =>
          (yrs.filter (fun y => (dat.map (·.1.y)).contains y)).contains e.1.y)).map (·.1.y)).Nodup := by
        refine hnd.sublist ?_
        exact (dat.filter_sublist).map (·.1.y)
      have h3 : ∀ x ∈ (dat.filter (fun e =>
          (yrs.filter (fun y => (dat.map (·.1.y)).contains y)).contains e.1.y)).map (·.1.y),
          x ∈ yrs.filter (fun y => (dat.map (·.1.y)).contains y) := by
        intro x hx
        rw [List.mem_map] at hx
        obtain ⟨e, he, hex⟩ := hx
        have := (List.mem_filter.mp he).2
        rw [← hex]
        exact List.elem_iff.mp this
      have h4 := nodup_subset_length h2 h3
      rw [List.length_map] at h4
      omega
    refine ⟨hg, hsubio, ?_⟩
    refine ⟨round1 ((((dat.filter (fun e =>
        (yrs.filter (fun y => (dat.map (·.1.y)).contains y)).contains e.1.y)).map (·.2)).countP
          (fun v => decide (0 < v)) : ℚ)
        / (yrs.filter (fun y => (dat.map (·.1.y)).contains y)).length * 100), rfl, ?_, ?_, ?_⟩
    · have hlen : (0 : ℚ) < (yrs.filter (fun y => (dat.map (·.1.y)).contains y)).length := by
        have : 0 < (yrs.filter (fun y => (dat.map (·.1.y)).contains y)).length := by omega
        exact_mod_cast this
      have hfrac : (0 : ℚ) ≤ (((dat.filter (fun e =>
          (yrs.filter (fun y => (dat.map (·.1.y)).contains y)).contains e.1.y)).map (·.2)).countP
            (fun v => decide (0 < v)) : ℚ)
          / (yrs.filter (fun y => (dat.map (·.1.y)).contains y)).length * 100 := by
        apply mul_nonneg
        · apply div_nonneg
          · exact_mod_cast Nat.zero_le _
          · exact le_of_lt hlen
        · norm_num
      have hle : (((dat.filter (fun e =>
          (yrs.filter (fun y => (dat.map (·.1.y)).contains y)).contains e.1.y)).map (·.2)).countP
            (fun v => decide (0 < v)) : ℚ)
          / (yrs.filter (fun y => (dat.map (·.1.y)).contains y)).length * 100 ≤ 100 := by
        have hq : (((dat.filter (fun e =>
            (yrs.filter (fun y => (dat.map (·.1.y)).contains y)).contains e.1.y)).map (·.2)).countP
              (fun v => decide (0 < v)) : ℚ)
            / (yrs.filter (fun y => (dat.map (·.1.y)).contains y)).length ≤ 1 := by
          rw [div_le_one hlen]
          exact_mod_cast hsubio
        nlinarith
      exact (round1_bounds hfrac hle).1
    · have hlen : (0 : ℚ) < (yrs.filter (fun y => (dat.map (·.1.y)).contains y)).length := by
        have : 0 < (yrs.filter (fun y => (dat.map (·.1.y)).contains y)).length := by omega
        exact_mod_cast this
      have hfrac : (0 : ℚ) ≤ (((dat.filter (fun e =>
          (yrs.filter (fun y => (dat.map (·.1.y)).contains y)).contains e.1.y)).map (·.2)).countP
            (fun v => decide (0 < v)) : ℚ)
          / (yrs.filter (fun y => (dat.map (·.1.y)).contains y)).length * 100 := by
        apply mul_nonneg
        · apply div_nonneg
          · exact_mod_cast Nat.zero_le _
          · exact le_of_lt hlen
        · norm_num
      have hle : (((dat.filter (fun e =>
          (yrs.filter (fun y => (dat.map (·.1.y)).contains y)).contains e.1.y)).map (·.2)).countP
            (fun v => decide (0 < v)) : ℚ)
          / (yrs.filter (fun y => (dat.map (·.1.y)).contains y)).length * 100 ≤ 100 := by
        have hq : (((dat.filter (fun e =>
            (yrs.filter (fun y => (dat.map (·.1.y)).contains y)).contains e.1.y)).map (·.2)).countP
              (fun v => decide (0 < v)) : ℚ)
            / (yrs.filter (fun y => (dat.map (·.1.y)).contains y)).length ≤ 1 := by
          rw [div_le_one hlen]
          exact_mod_cast hsubio
        nlinarith
      exact (round1_bounds hfrac hle).2
    · have hy0 : ∃ y0, y0 ∈ yrs.filter (fun y => (dat.map (·.1.y)).contains y) := by
        have hne : yrs.filter (fun y => (dat.map (·.1.y)).contains y) ≠ [] := by
          intro hnil
          rw [hnil] at hg
          simp at hg
          omega
        exact List.exists_mem_of_ne_nil _ hne
      obtain ⟨y0, hy0⟩ := hy0
      have hy0c := (List.mem_filter.mp hy0).2
      have hy0d : y0 ∈ dat.map (·.1.y) := List.elem_iff.mp hy0c
      rw [List.mem_map] at hy0d
      obtain ⟨e, he, hey⟩ := hy0d
      have heF : e ∈ dat.filter (fun e =>
          (yrs.filter (fun y => (dat.map (·.1.y)).contains y)).contains e.1.y) := by
        rw [List.mem_filter]
        refine ⟨he, ?_⟩
        apply List.elem_iff.mpr
        rw [hey]
        exact hy0
      have hvne : (dat.filter (fun e =>
          (yrs.filter (fun y => (dat.map (·.1.y)).contains y)).contains e.1.y)).map (·.2) ≠ [] := by
        intro hnil
        have : e.2 ∈ (dat.filter (fun e =>
            (yrs.filter (fun y => (dat.map (·.1.y)).contains y)).contains e.1.y)).map (·.2) :=
          List.mem_map.mpr ⟨e, heF, rfl⟩
        rw [hnil] at this
        cases this
      simp only [meanQ]
      rw [if_neg (by simpa [List.isEmpty_iff] using hvne)]
      rfl

theorem mem_of_mem_sortRecords {rec : CorrRecord} {l : List CorrRecord}
    (h : rec ∈ sortRecords l) : rec ∈ l := by
  unfold sortRecords at h
  rw [List.mem_append] at h
  rcases h with h | h
  · rw [List.mem_reverse] at h
    have h2 := (List.perm_insertionSort corrLe _).subset h
    rw [List.mem_reverse] at h2
    exact (List.mem_filter.mp h2).1
  · exact (List.mem_filter.mp h).1

/-- Claim C10 (confirmed).  For every call on a well-formed returns table
(per-column dates without duplicates, the MonthlyReturnTable invariant)
with `minOverlapYears ≥ 1`, every emitted record satisfies
`1 ≤ minOverlapYears ≤ n_años` and `subio_cuando_ref_bajo ≤ n_años`, its
`pct_subio` is a defined value in [0, 100], and its mean return is
defined (no division by a zero common-year count is reached).  With
`minOverlapYears = 0` this well-definedness fails: a candidate with an
empty common-year set reaches the division and yields an undefined
(`NaN`) percentage. -/
theorem c10_record_bounds :
    (∀ (cols : RetCols) (refTicker : String) (refMonth minOverlap : ℕ) (rows : List CorrRecord),
      1 ≤ minOverlap →
      (∀ p ∈ cols, ((p.2.map (·.1)).Nodup)) →
      find_correlations cols refTicker refMonth minOverlap = some rows →
      ∀ rec ∈ rows,
        1 ≤ minOverlap ∧ minOverlap ≤ rec.n_anos ∧
        rec.subio_cuando_ref_bajo ≤ rec.n_anos ∧
        ∃ q, rec.pct_subio = some q ∧ 0 ≤ q ∧ q ≤ 100 ∧ rec.retorno_prom.isSome) ∧
    (∃ rec ∈ (find_correlations zeroOverlapCols "R" 3 0).getD [],
      rec.n_anos = 0 ∧ rec.pct_subio = none) := by
  constructor
  · intro cols refTicker refMonth minOverlap rows hmin hnd h rec hrec
    unfold find_correlations at h
    cases hlook : lookupCol cols refTicker with
    | none => rw [hlook] at h; cases h
    | some refCol =>
      rw [hlook] at h
      simp only at h
      by_cases hemp : (refCol.filter (fun e => e.1.m == refMonth)).isEmpty
      · rw [if_pos hemp, Option.some_inj] at h
        subst h
        cases hrec
      · rw [if_neg hemp, Option.some_inj] at h
        subst h
        have hraw := mem_of_mem_sortRecords hrec
        unfold correlationRows at hraw
        rw [List.mem_flatMap] at hraw
        obtain ⟨tc, htc, hin⟩ := hraw
        by_cases hself : tc.1 == refTicker
        · rw [if_pos hself] at hin
          cases hin
        · rw [if_neg hself] at hin
          rw [List.mem_append] at hin
          have hndc := hnd tc htc
          rcases hin with hin | hin
          · rw [Option.mem_toList] at hin
            unfold sameMonthRecord at hin
            have hb := periodRecord_bounds _ _ _ _ _ _ _ hmin
              (filtered_years_nodup tc.2 refMonth hndc) hin
            exact ⟨hmin, hb.1, hb.2.1, hb.2.2⟩
          · rw [Option.mem_toList] at hin
            unfold nextMonthRecord at hin
            by_cases h12 : refMonth == 12
            · rw [if_pos h12] at hin
              have hb := periodRecord_bounds _ _ _ _ _ _ _ hmin
                (filtered_years_nodup tc.2 (refMonth % 12 + 1) hndc) hin
              exact ⟨hmin, hb.1, hb.2.1, hb.2.2⟩
            · rw [if_neg h12] at hin
              have hb := periodRecord_bounds _ _ _ _ _ _ _ hmin
                (filtered_years_nodup tc.2 (refMonth % 12 + 1) hndc) hin
              exact ⟨hmin, hb.1, hb.2.1, hb.2.2⟩
  · refine ⟨{ ticker := "C", periodo := "Mismo mes", mes := "Marzo", n_anos := 0,
              subio_cuando_ref_bajo := 0, pct_subio := none, retorno_prom := none },
      ?_, rfl, rfl⟩
    rw [(by with_unfolding_all rfl : (find_correlations zeroOverlapCols "R" 3 0).getD []
      = [{ ticker := "C", periodo := "Mismo mes", mes := "Marzo", n_anos := 0,
           subio_cuando_ref_bajo := 0, pct_subio := none, retorno_prom := none },
         { ticker := "C", periodo := "Mes siguiente", mes := "Abril", n_anos := 0,
           subio_cuando_ref_bajo := 0, pct_subio := none, retorno_prom := none }])]
    simp

/-- Claim C10 (witness): the bounds applied to the single record of the
`upCols` query at overlap 1. -/
theorem c10_record_bounds_witness :
    let r0 : CorrRecord :=
      { ticker := "C", periodo := "Mismo mes", mes := "Marzo", n_anos := 1,
        subio_cuando_ref_bajo := 1, pct_subio := some 100, retorno_prom := some 2 }
    1 ≤ 1 ∧ 1 ≤ r0.n_anos ∧ r0.subio_cuando_ref_bajo ≤ r0.n_anos ∧
    ∃ q, r0.pct_subio = some q ∧ 0 ≤ q ∧ q ≤ 100 ∧ r0.retorno_prom.isSome :=
  c10_record_bounds.1 upCols "R" 3 1
    [{ ticker := "C", periodo := "Mismo mes", mes := "Marzo", n_anos := 1,
       subio_cuando_ref_bajo := 1, pct_subio := some 100, retorno_prom := some 2 }]
    (by decide) (by decide) (by with_unfolding_all rfl) _ (by simp)
